import Mathlib

/-!
# Property fields (`server/public/model/property_field.go`)

A shallow embedding of the `PropertyField` model: the struct, `PreSave`,
`IsValid`, the partial patch `PropertyFieldPatch` and `Patch`.

Conventions of the embedding.

* A Go method that mutates its receiver through a pointer becomes a function
  that returns the updated record.
* `int64` timestamps are `Int`; the functions below only compare them with `0`
  and copy them, so no wrap-around arises.
* `map[string]any` is carried opaquely by every function of the file; the
  record is parametric in the type `A` that represents it.
* A nilable pointer (`*string`, `*map[string]any`) is an `Option`; a Go `error`
  result is `Option AppError`, `none` standing for `nil`.
* `IsValidId`, `NewId` and `GetMillis` live in `model/utils.go`, which is not
  part of the sources at hand: the predicate is a parameter `isValidId`, and the
  results of the two calls are the parameters `newId` and `now`.
* The property service and the custom-profile-attributes adapter, of which only
  the tests are at hand, are modelled from the spec over an explicit store.
-/

namespace Model

/-! ## Data model -/

/-- Go: `type PropertyFieldType string`. -/
abbrev PropertyFieldType := String

def PropertyFieldTypeText : PropertyFieldType := "text"
def PropertyFieldTypeSelect : PropertyFieldType := "select"
def PropertyFieldTypeMultiselect : PropertyFieldType := "multiselect"
def PropertyFieldTypeDate : PropertyFieldType := "date"
def PropertyFieldTypePerson : PropertyFieldType := "person"
def PropertyFieldTypeMultiperson : PropertyFieldType := "multiperson"

/-- The six declared `PropertyFieldType` constants, in declaration order. -/
def propertyFieldTypes : List PropertyFieldType :=
  [PropertyFieldTypeText, PropertyFieldTypeSelect, PropertyFieldTypeMultiselect,
   PropertyFieldTypeDate, PropertyFieldTypePerson, PropertyFieldTypeMultiperson]

/-- Go: `type PropertyField struct`. The field `Type` is spelled `Type_`
because `Type` is reserved. -/
structure PropertyField (A : Type) where
  ID : String
  GroupID : String
  Name : String
  Type_ : PropertyFieldType
  Attrs : A
  TargetID : String
  TargetType : String
  CreateAt : Int
  UpdateAt : Int
  DeleteAt : Int
  deriving DecidableEq, Repr

/-- Go: `type PropertyFieldPatch struct`; every member is a pointer, `none`
when the pointer is `nil`. -/
structure PropertyFieldPatch (A : Type) where
  Name : Option String
  Type_ : Option PropertyFieldType
  Attrs : Option A
  TargetID : Option String
  TargetType : Option String
  deriving DecidableEq, Repr

/-- Go: `http.StatusBadRequest`. -/
def StatusBadRequest : Int := 400

/-- Modelled from the spec: the `AppError` type of `model/utils.go` is not among
the sources; errors are "typed application errors carrying an identifying code
and an HTTP-equivalent status class". The record keeps the origin, the
identifying code, the detail text and the status that `NewAppError` is given
(`Id` and `StatusCode` are the members the tests read). -/
structure AppError where
  Where : String
  Id : String
  DetailedError : String
  StatusCode : Int
  deriving DecidableEq, Repr

/-- Modelled from the spec: `NewAppError(where, id, params, details, status)` of
`model/utils.go` is not among the sources; it builds the typed application
error from its arguments. Every call in `IsValid` passes `nil` for `params`,
which is therefore left out. -/
def NewAppError (origin id details : String) (status : Int) : AppError :=
  { Where := origin, Id := id, DetailedError := details, StatusCode := status }

/-- Modelled from the spec: `IsValidId` of `model/utils.go` is not among the
sources and the spec only speaks of "well-formed identifiers". This instance
accepts exactly the strings made of 26 ASCII letters or digits, the shape of the
ids the tests obtain from `NewId`. The general theorems take the predicate as
the parameter `isValidId`; this instance is used where a concrete field is
evaluated. -/
def IsValidId (value : String) : Bool :=
  value.data.length == 26 && value.data.all Char.isAlphanum

/-! ## Operations -/

variable {A : Type}

/-- Go: `func (pf *PropertyField) PreSave()`. `newId` is what `NewId()` returns
and `now` what `GetMillis()` returns when they are called. -/
def PropertyField.PreSave (newId : String) (now : Int) (pf : PropertyField A) :
    PropertyField A :=
  let pf := if pf.ID = "" then { pf with ID := newId } else pf
  let pf := if pf.CreateAt = 0 then { pf with CreateAt := now } else pf
  { pf with UpdateAt := pf.CreateAt }

/-- Go: `func (pf *PropertyField) IsValid() error`. -/
def PropertyField.IsValid (isValidId : String → Bool) (pf : PropertyField A) :
    Option AppError :=
  if !isValidId pf.ID then
    some (NewAppError "PropertyField.IsValid"
      "model.property_field.is_valid.id.app_error" "" StatusBadRequest)
  else if !isValidId pf.GroupID then
    some (NewAppError "PropertyField.IsValid"
      "model.property_field.is_valid.group_id.app_error" ("id=" ++ pf.ID) StatusBadRequest)
  else if pf.Name = "" then
    some (NewAppError "PropertyField.IsValid"
      "model.property_field.is_valid.name.app_error" ("id=" ++ pf.ID) StatusBadRequest)
  else if pf.Type_ = "" then
    some (NewAppError "PropertyField.IsValid"
      "model.property_field.is_valid.type.app_error" ("id=" ++ pf.ID) StatusBadRequest)
  else if pf.CreateAt = 0 then
    some (NewAppError "PropertyField.IsValid"
      "model.property_field.is_valid.create_at.app_error" ("id=" ++ pf.ID) StatusBadRequest)
  else if pf.UpdateAt = 0 then
    some (NewAppError "PropertyField.IsValid"
      "model.property_field.is_valid.update_at.app_error" ("id=" ++ pf.ID) StatusBadRequest)
  else
    none

/-- Go: `func (f *PropertyField) Patch(patch *PropertyFieldPatch)`. The five
`if patch.X != nil` statements run in source order. -/
def PropertyField.Patch (f : PropertyField A) (patch : PropertyFieldPatch A) :
    PropertyField A :=
  let f := match patch.Name with
    | some v => { f with Name := v }
    | none => f
  let f := match patch.Type_ with
    | some v => { f with Type_ := v }
    | none => f
  let f := match patch.Attrs with
    | some v => { f with Attrs := v }
    | none => f
  let f := match patch.TargetID with
    | some v => { f with TargetID := v }
    | none => f
  match patch.TargetType with
    | some v => { f with TargetType := v }
    | none => f

/-! ## The feature adapter's patch -/

/-- Modelled from the spec: `PatchCPAField` (the feature adapter in
`channels/app`) is not among the sources, only its test is. "`targetID`/
`targetType` in the incoming patch are intentionally ignored/stripped before
delegating to `PatchPropertyField`, regardless of what the caller supplied":
both target members of the patch are cleared, the other three are kept. -/
def cpaStripPatch (patch : PropertyFieldPatch A) : PropertyFieldPatch A :=
  { patch with TargetID := none, TargetType := none }

/-- Modelled from the spec: the change `PatchCPAField` makes to the field it
has fetched: the stripped patch is applied by `Patch`. The lookup by id (with
its group check) and the store's fresh `updateAt` stamp are not part of this
definition. -/
def cpaApplyPatch (f : PropertyField A) (patch : PropertyFieldPatch A) : PropertyField A :=
  f.Patch (cpaStripPatch patch)

/-! ## The property service and the feature adapter

The generic property service (`CreatePropertyField`, `GetPropertyField`,
`DeletePropertyField`, `SearchPropertyValues`) and the feature adapter
(`CreateCPAField`, `GetCPAField`, `DeleteCPAField`) are exercised by
`custom_profile_attributes_test.go`, but their code is not among the sources.
They are modelled from the spec over an explicit store; every operation takes
the store and, when it writes, returns the store it leaves behind. Failures of
the backing store itself are not modelled. -/

/-- Modelled from the spec: `PropertyValue` (its Go file is not among the
sources), with the attributes of §3: "`id`, `groupID`, `fieldID`, `targetID`,
`targetType`, `value` (opaque payload), `createAt`, `updateAt`, `deleteAt`". -/
structure PropertyValue where
  ID : String
  TargetID : String
  TargetType : String
  GroupID : String
  FieldID : String
  Value : String
  CreateAt : Int
  UpdateAt : Int
  DeleteAt : Int
  deriving DecidableEq, Repr

/-- Modelled from the spec: the options of `SearchPropertyValues`,
"opts{groupID, fieldID, targetID, targetType, includeDeleted, page, perPage}".
A filter left at the empty string is not applied, as in the test, whose search
by `FieldID` alone finds values of any target. -/
structure PropertyValueSearchOpts where
  GroupID : String
  FieldID : String
  TargetID : String
  TargetType : String
  IncludeDeleted : Bool
  Page : Nat
  PerPage : Nat
  deriving DecidableEq, Repr

/-- Modelled from the spec: the backing store as the two sequences of stored
fields and stored values, in insertion order. -/
structure PropertyStore (A : Type) where
  fields : List (PropertyField A)
  values : List PropertyValue
  deriving DecidableEq, Repr

/-- Modelled from the spec: the failures of the generic service, "not-found"
(id absent) and "validation" (the error of `IsValid`). -/
inductive PropertyError where
  | notFound
  | invalid (cause : AppError)
  deriving DecidableEq, Repr

/-- Modelled from the spec: the failures surfaced by the adapter. The tests
tell two lookup failures apart: `getPropertyField` when the generic lookup
fails and `propertyFieldNotFound` when the field belongs to another group.
`limitReached` is the quota error; `service` wraps a failure of the generic
operation the adapter delegates to. -/
inductive CPAError where
  | getPropertyField
  | propertyFieldNotFound
  | limitReached
  | service (cause : PropertyError)
  deriving DecidableEq, Repr

/-- Go: `http.StatusUnprocessableEntity`. -/
def StatusUnprocessableEntity : Int := 422

/-- The error identifier that the tests assert for an adapter failure; `none`
where the sources name none. -/
def CPAError.Id : CPAError → Option String
  | .getPropertyField => some "app.custom_profile_attributes.get_property_field.app_error"
  | .propertyFieldNotFound =>
      some "app.custom_profile_attributes.property_field_not_found.app_error"
  | .limitReached => none
  | .service _ => none

/-- The status that the tests assert for an adapter failure; `none` where the
sources name none. -/
def CPAError.StatusCode : CPAError → Option Int
  | .limitReached => some StatusUnprocessableEntity
  | _ => none

/-- Modelled from the spec: `GetPropertyField(id)`, "fetch-by-id regardless of
group; fails with a not-found error if absent". A soft-deleted field is still
returned, as the deletion test reads its `DeleteAt` back. -/
def GetPropertyField (id : String) (s : PropertyStore A) :
    Except PropertyError (PropertyField A) :=
  match s.fields.find? (fun f => decide (f.ID = id)) with
  | some f => .ok f
  | none => .error .notFound

/-- Modelled from the spec: `CreatePropertyField(field)`, "validates ...;
assigns id/timestamps when absent; persists; returns the stored field. Fails
with a validation error". Validation and assignment are the `PreSave` and
`IsValid` of the source. No check that the group exists is made: the tests
create fields under a fresh, unregistered group id. -/
def CreatePropertyField (isValidId : String → Bool) (newId : String) (now : Int)
    (field : PropertyField A) (s : PropertyStore A) :
    PropertyStore A × Except PropertyError (PropertyField A) :=
  let stored := field.PreSave newId now
  match stored.IsValid isValidId with
  | some e => (s, .error (.invalid e))
  | none => ({ s with fields := s.fields ++ [stored] }, .ok stored)

/-- The soft deletion of one field: "sets `deleteAt = now` if not already
deleted". -/
def PropertyField.softDelete (now : Int) (f : PropertyField A) : PropertyField A :=
  if f.DeleteAt = 0 then { f with DeleteAt := now } else f

/-- The soft deletion of one value, as for a field. -/
def PropertyValue.softDelete (now : Int) (v : PropertyValue) : PropertyValue :=
  if v.DeleteAt = 0 then { v with DeleteAt := now } else v

/-- Modelled from the spec: `DeletePropertyField(id)`, "soft-deletes the field
(sets `deleteAt = now` if not already deleted) and, in the same logical
operation, soft-deletes every non-deleted value referencing it. Fails not-found
if the field does not exist". -/
def DeletePropertyField (now : Int) (id : String) (s : PropertyStore A) :
    PropertyStore A × Except PropertyError Unit :=
  match GetPropertyField id s with
  | .error e => (s, .error e)
  | .ok _ =>
    ({ fields := s.fields.map (fun f => if f.ID = id then f.softDelete now else f),
       values := s.values.map (fun v => if v.FieldID = id then v.softDelete now else v) },
     .ok ())

/-- Whether a value passes the filters of a search: each filter that is given
must agree, and a soft-deleted value passes only with `IncludeDeleted`. -/
def PropertyValueSearchOpts.admits (opts : PropertyValueSearchOpts) (v : PropertyValue) :
    Bool :=
  (opts.GroupID == "" || v.GroupID == opts.GroupID) &&
  (opts.FieldID == "" || v.FieldID == opts.FieldID) &&
  (opts.TargetID == "" || v.TargetID == opts.TargetID) &&
  (opts.TargetType == "" || v.TargetType == opts.TargetType) &&
  (opts.IncludeDeleted || v.DeleteAt == 0)

/-- One page of a sequence: page `page` (counted from zero, as in the test,
which leaves `Page` unset to read the first page) of pages of `perPage`
entries. A `perPage` of zero gives the empty page. -/
def pageOf {α : Type} (page perPage : Nat) (l : List α) : List α :=
  (l.drop (page * perPage)).take perPage

/-- Modelled from the spec: `SearchPropertyValues(opts)`, "returns matching
values; excludes soft-deleted ones unless requested", "paginated by
page/per-page": the requested page of the matching values, in the order in
which they were stored. -/
def SearchPropertyValues (opts : PropertyValueSearchOpts) (s : PropertyStore A) :
    List PropertyValue :=
  pageOf opts.Page opts.PerPage (s.values.filter opts.admits)

/-- A search by `FieldID` alone, with or without the soft-deleted values, for
one page. The search of the deletion test is `searchByField id incl 0 10`:
`PerPage: 10`, `Page` unset. -/
def searchByField (fieldID : String) (includeDeleted : Bool) (page perPage : Nat) :
    PropertyValueSearchOpts :=
  { GroupID := "", FieldID := fieldID, TargetID := "", TargetType := "",
    IncludeDeleted := includeDeleted, Page := page, PerPage := perPage }

/-- The values of a store that reference a field, deleted or not, in the order
in which they were stored. -/
def valuesOfField (fieldID : String) (s : PropertyStore A) : List PropertyValue :=
  s.values.filter (fun v => decide (v.FieldID = fieldID))

/-- Modelled from the spec: `GetCPAField(id)`, "delegates to
`GetPropertyField`; if the returned field's `groupID` does not equal the
feature's group, returns" a not-found error. `group` is the adapter's
registered group. The two failures carry the two identifiers of
`TestGetCPAField`. -/
def GetCPAField (group : String) (id : String) (s : PropertyStore A) :
    Except CPAError (PropertyField A) :=
  match GetPropertyField id s with
  | .error _ => .error .getPropertyField
  | .ok f => if f.GroupID ≠ group then .error .propertyFieldNotFound else .ok f

/-- Modelled from the spec: `DeleteCPAField(id)`, "fetches via `GetCPAField`
first (group isolation + not-found translation), then delegates to
`DeletePropertyField`, which performs the field+values cascade". -/
def DeleteCPAField (group : String) (now : Int) (id : String) (s : PropertyStore A) :
    PropertyStore A × Except CPAError Unit :=
  match GetCPAField group id s with
  | .error e => (s, .error e)
  | .ok _ =>
    match DeletePropertyField now id s with
    | (s1, .ok _) => (s1, .ok ())
    | (s1, .error e) => (s1, .error (.service e))

/-- The number of "currently-active fields in the feature's group". -/
def activeFieldCount (group : String) (s : PropertyStore A) : Nat :=
  (s.fields.filter (fun f => decide (f.GroupID = group ∧ f.DeleteAt = 0))).length

/-- Modelled from the spec: `CreateCPAField(field)`, "if `field.groupID` is
empty or does not match the feature's registered group, it is overridden to
the feature's group ... counts currently-active fields in the feature's group;
if the count has already reached the configured limit, fails with a quota error
... without performing the create. Otherwise delegates to
`CreatePropertyField`". `limit` is the configured limit
(`CustomProfileAttributesFieldLimit`, whose value is not among the sources). -/
def CreateCPAField (group : String) (limit : Nat) (isValidId : String → Bool)
    (newId : String) (now : Int) (field : PropertyField A) (s : PropertyStore A) :
    PropertyStore A × Except CPAError (PropertyField A) :=
  let field :=
    if field.GroupID = "" ∨ field.GroupID ≠ group then { field with GroupID := group }
    else field
  if limit ≤ activeFieldCount group s then (s, .error .limitReached)
  else
    match CreatePropertyField isValidId newId now field s with
    | (s1, .ok stored) => (s1, .ok stored)
    | (s1, .error e) => (s1, .error (.service e))

/-- A sequence of creates through the adapter, each with the field submitted
and the `NewId()` and `GetMillis()` results of that call; the result is the
store left behind and the outcome of every create, in order. -/
def CreateCPAFields (group : String) (limit : Nat) (isValidId : String → Bool) :
    List (PropertyField A × String × Int) → PropertyStore A →
      PropertyStore A × List (Except CPAError (PropertyField A))
  | [], s => (s, [])
  | (field, newId, now) :: rest, s =>
    let r := CreateCPAField group limit isValidId newId now field s
    let rs := CreateCPAFields group limit isValidId rest r.1
    (rs.1, r.2 :: rs.2)

/-- The field that `CreateCPAField` persists for a create: the submitted field
with the adapter's group, after `PreSave`. -/
def storedByCreate (group : String) (c : PropertyField A × String × Int) : PropertyField A :=
  PropertyField.PreSave c.2.1 c.2.2 { c.1 with GroupID := group }

/-- A create that passes validation once the adapter has set the group and
`PreSave` has run, and that submits an active field. -/
def validCreate (group : String) (isValidId : String → Bool)
    (c : PropertyField A × String × Int) : Prop :=
  (storedByCreate group c).IsValid isValidId = none ∧ c.1.DeleteAt = 0

/-! ## Reading `IsValid` as an ordered list of checks -/

/-- The six attributes that `IsValid` checks, in the order of the claim, each
with the outcome of its check (`true` when the attribute passes). -/
def attributeChecks (isValidId : String → Bool) (pf : PropertyField A) :
    List (String × Bool) :=
  [("id", isValidId pf.ID),
   ("group_id", isValidId pf.GroupID),
   ("name", decide (pf.Name ≠ "")),
   ("type", decide (pf.Type_ ≠ "")),
   ("create_at", decide (pf.CreateAt ≠ 0)),
   ("update_at", decide (pf.UpdateAt ≠ 0))]

/-- The first attribute, in that order, whose check fails. -/
def firstInvalidAttribute (isValidId : String → Bool) (pf : PropertyField A) :
    Option String :=
  ((attributeChecks isValidId pf).find? (fun c => !c.2)).map Prod.fst

/-- The error identifier of an attribute:
`model.property_field.is_valid.<attribute>.app_error`. -/
def isValidErrorId (attr : String) : String :=
  "model.property_field.is_valid." ++ attr ++ ".app_error"

/-! ## Merging two patches -/

/-- The merged patch of the composition claim: each member is the one of `q`
when `q` supplies it and the one of `p` otherwise. -/
def mergePatch (p q : PropertyFieldPatch A) : PropertyFieldPatch A :=
  { Name := match q.Name with
      | some v => some v
      | none => p.Name
    Type_ := match q.Type_ with
      | some v => some v
      | none => p.Type_
    Attrs := match q.Attrs with
      | some v => some v
      | none => p.Attrs
    TargetID := match q.TargetID with
      | some v => some v
      | none => p.TargetID
    TargetType := match q.TargetType with
      | some v => some v
      | none => p.TargetType }

/-! ## The audit record -/

/-- A value held in the `map[string]interface{}` that `Auditable` builds, by
the Go type it is stored with: `string`, `PropertyFieldType`,
`map[string]any` or `int64`. -/
inductive AuditValue (A : Type) where
  | string (s : String)
  | fieldType (t : PropertyFieldType)
  | attrs (a : A)
  | int64 (n : Int)
  deriving DecidableEq, Repr

/-- The JSON tags of the members of `PropertyField`, in declaration order. -/
def propertyFieldJSONTags : List String :=
  ["id", "group_id", "name", "type", "attrs", "target_id", "target_type",
   "create_at", "update_at", "delete_at"]

/-- Go: `func (pf *PropertyField) Auditable() map[string]interface{}`. The
method has a pointer receiver: the first component is the record as the call
leaves it (the body assigns to none of its members), the second the map, as
its entries in the order of the map literal. -/
def PropertyField.Auditable (pf : PropertyField A) :
    PropertyField A × List (String × AuditValue A) :=
  (pf,
   [("id", .string pf.ID),
    ("group_id", .string pf.GroupID),
    ("name", .string pf.Name),
    ("attrs", .attrs pf.Attrs),
    ("type", .fieldType pf.Type_),
    ("target_id", .string pf.TargetID),
    ("target_type", .string pf.TargetType),
    ("create_at", .int64 pf.CreateAt),
    ("update_at", .int64 pf.UpdateAt),
    ("delete_at", .int64 pf.DeleteAt)])

/-! ## Sample data -/

/-- A well-formed id: 26 lower-case letters and digits. -/
def sampleId : String := "abcdefghijklmnopqrstuvwxyz"

/-- A second well-formed id. -/
def sampleGroupId : String := "0123456789abcdefghijklmnop"

/-- Attrs as the tests write them: a list of key/value pairs. -/
abbrev SampleAttrs := List (String × String)

/-- A field that passes every check of `IsValid`. -/
def sampleField : PropertyField SampleAttrs :=
  { ID := sampleId, GroupID := sampleGroupId, Name := "Test Field",
    Type_ := PropertyFieldTypeText, Attrs := [("visibility", "hidden")],
    TargetID := "", TargetType := "", CreateAt := 1000, UpdateAt := 1000, DeleteAt := 0 }

/-- The patch of `TestPatchCPAField`: name, attrs and both target members. -/
def samplePatch : PropertyFieldPatch SampleAttrs :=
  { Name := some "Patched name", Type_ := none,
    Attrs := some [("visibility", "default")],
    TargetID := some sampleId, TargetType := some sampleGroupId }

/-- A field with only a name, as in "should fail if the field is not valid". -/
def nameOnlyField : PropertyField SampleAttrs :=
  { ID := "", GroupID := "", Name := sampleId, Type_ := "", Attrs := [],
    TargetID := "", TargetType := "", CreateAt := 0, UpdateAt := 0, DeleteAt := 0 }

/-- A field as a caller submits it for creation: no id and no timestamps. -/
def newField : PropertyField SampleAttrs :=
  { ID := "", GroupID := sampleGroupId, Name := "Bio", Type_ := PropertyFieldTypeText,
    Attrs := [("visibility", "hidden")], TargetID := "", TargetType := "",
    CreateAt := 0, UpdateAt := 0, DeleteAt := 0 }

/-- A field with a malformed id and an empty name. -/
def malformedIdEmptyNameField : PropertyField SampleAttrs :=
  { sampleField with ID := "not an id", Name := "" }

/-- A field that is well-formed except that its type is none of the six
declared constants. -/
def unlistedTypeField : PropertyField SampleAttrs :=
  { sampleField with Type_ := "bogus" }

/-- A field whose `UpdateAt` lies before its `CreateAt`. -/
def staleUpdateField : PropertyField SampleAttrs :=
  { sampleField with CreateAt := 2000, UpdateAt := 1000 }

/-- A patch that supplies an empty name and nothing else. -/
def emptyNamePatch : PropertyFieldPatch SampleAttrs :=
  { Name := some "", Type_ := none, Attrs := none, TargetID := none, TargetType := none }

/-- A field that passes every check but the last: `UpdateAt` is zero. -/
def zeroUpdateField : PropertyField SampleAttrs :=
  { sampleField with UpdateAt := 0 }

/-- An id of another group than the adapter's. -/
def otherGroupId : String := "zyxwvutsrqponmlkjihgfedcba"

/-- A well-formed id under which nothing is stored. -/
def absentId : String := "99999999999999999999999999"

/-- A field stored under another group than the adapter's. -/
def foreignField : PropertyField SampleAttrs :=
  { sampleField with ID := "foreignfield00000000000000", GroupID := otherGroupId,
                     Name := "Foreign" }

/-- A value attached to the sample field, as the deletion test creates them. -/
def sampleValue (id target payload : String) : PropertyValue :=
  { ID := id, TargetID := target, TargetType := "user", GroupID := sampleGroupId,
    FieldID := sampleId, Value := payload, CreateAt := 1100, UpdateAt := 1100, DeleteAt := 0 }

/-- A store with the sample field (in the adapter's group `sampleGroupId`), a
field of another group, three values of the sample field and one value of the
other field. -/
def sampleStore : PropertyStore SampleAttrs :=
  { fields := [sampleField, foreignField],
    values :=
      [sampleValue "value000000000000000000000" "user0000000000000000000000" "Value 0",
       sampleValue "value111111111111111111111" "user1111111111111111111111" "Value 1",
       { sampleValue "value999999999999999999999" "user0000000000000000000000" "Other" with
         GroupID := otherGroupId, FieldID := "foreignfield00000000000000" },
       sampleValue "value222222222222222222222" "user2222222222222222222222" "Value 2"] }

/-- Eleven value ids. -/
def elevenValueIds : List String :=
  ["value000000000000000000000", "value000000000000000000001",
   "value000000000000000000002", "value000000000000000000003",
   "value000000000000000000004", "value000000000000000000005",
   "value000000000000000000006", "value000000000000000000007",
   "value000000000000000000008", "value000000000000000000009",
   "value000000000000000000010"]

/-- A store with the sample field and eleven values of it, one more than a page
of the deletion test's search holds. -/
def elevenValuesStore : PropertyStore SampleAttrs :=
  { fields := [sampleField],
    values := elevenValueIds.map
      (fun id => sampleValue id "user0000000000000000000000" "Value") }

/-- A store that holds nothing. -/
def emptyStore : PropertyStore SampleAttrs := { fields := [], values := [] }

/-- Two creates through the adapter, the second without a group. -/
def twoCreates : List (PropertyField SampleAttrs × String × Int) :=
  [(newField, sampleId, 1000),
   ({ newField with GroupID := "", Name := "Pronouns" }, absentId, 1001)]

/-- The sample ids are well-formed, the empty string is not, and the sample
field passes `IsValid`. -/
theorem sample_data_checks :
    IsValidId sampleId = true ∧ IsValidId sampleGroupId = true ∧ IsValidId "" = false ∧
    sampleField.IsValid IsValidId = none := by
  decide

/-! ## Patch -/

/-- C1: after `f.Patch(p)` each of name, type, attrs, targetID and targetType is
the value carried by `p` when `p` supplies it and the previous value of `f`
otherwise. -/
theorem patch_applies_present_attributes (f : PropertyField A) (p : PropertyFieldPatch A) :
    (f.Patch p).Name = p.Name.getD f.Name ∧
    (f.Patch p).Type_ = p.Type_.getD f.Type_ ∧
    (f.Patch p).Attrs = p.Attrs.getD f.Attrs ∧
    (f.Patch p).TargetID = p.TargetID.getD f.TargetID ∧
    (f.Patch p).TargetType = p.TargetType.getD f.TargetType := by
  obtain ⟨n, t, a, ti, tt⟩ := p
  cases n <;> cases t <;> cases a <;> cases ti <;> cases tt <;>
    simp [PropertyField.Patch]

/-- C7: applying `Patch` with the same patch twice gives the same field as
applying it once. `Patch` never writes `UpdateAt`, so the two records agree in
every attribute. -/
theorem patch_idempotent (f : PropertyField A) (p : PropertyFieldPatch A) :
    (f.Patch p).Patch p = f.Patch p := by
  obtain ⟨n, t, a, ti, tt⟩ := p
  cases n <;> cases t <;> cases a <;> cases ti <;> cases tt <;>
    simp [PropertyField.Patch]

/-- C8: the patch whose five members are all absent leaves the field as it
was, in every attribute. -/
theorem patch_empty_noop (f : PropertyField A) :
    f.Patch { Name := none, Type_ := none, Attrs := none, TargetID := none,
              TargetType := none } = f := by
  simp [PropertyField.Patch]

/-- C9: whatever the incoming patch carries, the adapter's patch (target
members stripped, then `Patch`) leaves `TargetID` and `TargetType` as they
were, and still applies the supplied name, type and attrs. -/
theorem cpaApplyPatch_keeps_target_linkage (f : PropertyField A) (p : PropertyFieldPatch A) :
    (cpaApplyPatch f p).TargetID = f.TargetID ∧
    (cpaApplyPatch f p).TargetType = f.TargetType ∧
    (cpaApplyPatch f p).Name = p.Name.getD f.Name ∧
    (cpaApplyPatch f p).Type_ = p.Type_.getD f.Type_ ∧
    (cpaApplyPatch f p).Attrs = p.Attrs.getD f.Attrs := by
  obtain ⟨n, t, a, ti, tt⟩ := p
  cases n <;> cases t <;> cases a <;>
    simp [cpaApplyPatch, cpaStripPatch, PropertyField.Patch]

/-! ## PreSave -/

/-- C2: after `PreSave` the update time equals the creation time, whatever
`UpdateAt` was before; when `CreateAt` was `0` both are the time returned by
`GetMillis`. -/
theorem preSave_updateAt_eq_createAt (newId : String) (now : Int) (f : PropertyField A) :
    (f.PreSave newId now).UpdateAt = (f.PreSave newId now).CreateAt ∧
    (f.CreateAt = 0 →
      (f.PreSave newId now).CreateAt = now ∧ (f.PreSave newId now).UpdateAt = now) := by
  refine ⟨by simp [PropertyField.PreSave], fun h => ?_⟩
  by_cases hid : f.ID = "" <;> simp [PropertyField.PreSave, hid, h]

/-- Witness of C2 on a field submitted without timestamps. -/
theorem preSave_updateAt_eq_createAt_witness :
    newField.CreateAt = 0 ∧
    (newField.PreSave sampleId 1234).CreateAt = 1234 ∧
    (newField.PreSave sampleId 1234).UpdateAt = 1234 :=
  ⟨by decide, (preSave_updateAt_eq_createAt sampleId 1234 newField).2 (by decide)⟩

/-- C10: `PreSave` generates the id and the creation time only when they are
absent: a non-empty id and a non-zero `CreateAt` are kept, an empty id becomes
the `NewId()` result and a zero `CreateAt` the `GetMillis()` result. -/
theorem preSave_generates_only_if_absent (newId : String) (now : Int) (f : PropertyField A) :
    (f.ID ≠ "" → (f.PreSave newId now).ID = f.ID) ∧
    (f.ID = "" → (f.PreSave newId now).ID = newId) ∧
    (f.CreateAt ≠ 0 → (f.PreSave newId now).CreateAt = f.CreateAt) ∧
    (f.CreateAt = 0 → (f.PreSave newId now).CreateAt = now) := by
  by_cases hid : f.ID = "" <;> by_cases hc : f.CreateAt = 0 <;>
    simp [PropertyField.PreSave, hid, hc]

/-- Witness of C10: an absent id and time are generated, present ones kept. -/
theorem preSave_generates_only_if_absent_witness :
    (newField.ID = "" ∧ (newField.PreSave sampleId 1234).ID = sampleId) ∧
    (newField.CreateAt = 0 ∧ (newField.PreSave sampleId 1234).CreateAt = 1234) ∧
    (sampleField.ID ≠ "" ∧ (sampleField.PreSave sampleGroupId 1234).ID = sampleField.ID) ∧
    (sampleField.CreateAt ≠ 0 ∧
      (sampleField.PreSave sampleGroupId 1234).CreateAt = sampleField.CreateAt) :=
  ⟨⟨by decide, (preSave_generates_only_if_absent sampleId 1234 newField).2.1 (by decide)⟩,
   ⟨by decide, (preSave_generates_only_if_absent sampleId 1234 newField).2.2.2 (by decide)⟩,
   ⟨by decide, (preSave_generates_only_if_absent sampleGroupId 1234 sampleField).1 (by decide)⟩,
   ⟨by decide,
    (preSave_generates_only_if_absent sampleGroupId 1234 sampleField).2.2.1 (by decide)⟩⟩

/-! ## IsValid -/

/-- `IsValid` returns no error exactly when its six checks pass. -/
theorem isValid_eq_none_iff_checks (isValidId : String → Bool) (f : PropertyField A) :
    f.IsValid isValidId = none ↔
      isValidId f.ID = true ∧ isValidId f.GroupID = true ∧ f.Name ≠ "" ∧ f.Type_ ≠ "" ∧
        f.CreateAt ≠ 0 ∧ f.UpdateAt ≠ 0 := by
  unfold PropertyField.IsValid
  cases h1 : isValidId f.ID <;> cases h2 : isValidId f.GroupID <;>
    by_cases h3 : f.Name = "" <;> by_cases h4 : f.Type_ = "" <;>
    by_cases h5 : f.CreateAt = 0 <;> by_cases h6 : f.UpdateAt = 0 <;>
    simp [h3, h4, h5, h6]

/-- C3: with `NewId` returning a well-formed id and `GetMillis` a non-zero
time, `IsValid` accepts the pre-saved field exactly when the id is empty or
well-formed, the group id is well-formed, and name and type are non-empty. In
particular an empty type is rejected (so is a field with only a name), and with
an empty id the other three conditions decide alone. -/
theorem create_validation_iff (isValidId : String → Bool) (newId : String) (now : Int)
    (hid : isValidId newId = true) (hnow : now ≠ 0) (f : PropertyField A) :
    ((f.PreSave newId now).IsValid isValidId = none ↔
      (f.ID = "" ∨ isValidId f.ID = true) ∧ isValidId f.GroupID = true ∧
        f.Name ≠ "" ∧ f.Type_ ≠ "") ∧
    (f.Type_ = "" → (f.PreSave newId now).IsValid isValidId ≠ none) ∧
    (f.ID = "" →
      ((f.PreSave newId now).IsValid isValidId = none ↔
        isValidId f.GroupID = true ∧ f.Name ≠ "" ∧ f.Type_ ≠ "")) := by
  have key : (f.PreSave newId now).IsValid isValidId = none ↔
      (f.ID = "" ∨ isValidId f.ID = true) ∧ isValidId f.GroupID = true ∧
        f.Name ≠ "" ∧ f.Type_ ≠ "" := by
    rw [isValid_eq_none_iff_checks]
    by_cases h1 : f.ID = "" <;> by_cases h2 : f.CreateAt = 0 <;>
      simp [PropertyField.PreSave, h1, h2, hid, hnow]
  refine ⟨key, fun ht hv => (key.1 hv).2.2.2 ht, fun he => ?_⟩
  rw [key]
  simp [he]

/-- Witness of C3: a submitted field without id is accepted once pre-saved, a
field with only a name is rejected. -/
theorem create_validation_iff_witness :
    IsValidId sampleId = true ∧ (1234 : Int) ≠ 0 ∧
    (newField.PreSave sampleId 1234).IsValid IsValidId = none ∧
    (nameOnlyField.PreSave sampleId 1234).IsValid IsValidId ≠ none :=
  ⟨by decide, by decide,
   (create_validation_iff IsValidId sampleId 1234 (by decide) (by decide) newField).1.2
     ⟨Or.inl (by decide), by decide, by decide, by decide⟩,
   (create_validation_iff IsValidId sampleId 1234 (by decide) (by decide) nameOnlyField).2.1
     (by decide)⟩

/-- C4: when `IsValid` fails, the identifier of the returned error is the one
of the first attribute, in the order id, group_id, name, type, create_at,
update_at, whose check fails; a malformed id together with an empty name gives
the id error; the six identifiers are pairwise distinct. -/
theorem isValid_error_names_first_invalid (isValidId : String → Bool) (f : PropertyField A)
    (e : AppError) (h : f.IsValid isValidId = some e) :
    (∃ a, firstInvalidAttribute isValidId f = some a ∧ e.Id = isValidErrorId a) ∧
    (∀ g : PropertyField A, isValidId g.ID = false → g.Name = "" →
      (g.IsValid isValidId).map AppError.Id = some (isValidErrorId "id")) ∧
    (List.map isValidErrorId
      ["id", "group_id", "name", "type", "create_at", "update_at"]).Pairwise (· ≠ ·) := by
  refine ⟨?_, ?_, by decide⟩
  · unfold PropertyField.IsValid at h
    cases h1 : isValidId f.ID <;> cases h2 : isValidId f.GroupID <;>
      by_cases h3 : f.Name = "" <;> by_cases h4 : f.Type_ = "" <;>
      by_cases h5 : f.CreateAt = 0 <;> by_cases h6 : f.UpdateAt = 0 <;>
      simp [h1, h2, h3, h4, h5, h6, NewAppError] at h <;>
      subst h <;>
      simp [firstInvalidAttribute, attributeChecks, h1, h2, h3, h4, h5, h6] <;>
      decide
  · intro g hg _
    simp [PropertyField.IsValid, hg, NewAppError]
    decide

/-- Witness of C4: the field with a malformed id and an empty name fails with
the id error, and `id` is its first invalid attribute. -/
theorem isValid_error_names_first_invalid_witness :
    malformedIdEmptyNameField.IsValid IsValidId =
      some (NewAppError "PropertyField.IsValid" "model.property_field.is_valid.id.app_error"
        "" StatusBadRequest) ∧
    firstInvalidAttribute IsValidId malformedIdEmptyNameField = some "id" ∧
    ∃ a, firstInvalidAttribute IsValidId malformedIdEmptyNameField = some a ∧
      (NewAppError "PropertyField.IsValid" "model.property_field.is_valid.id.app_error"
        "" StatusBadRequest).Id = isValidErrorId a :=
  ⟨by decide, by decide,
   (isValid_error_names_first_invalid IsValidId malformedIdEmptyNameField _ (by decide)).1⟩

/-- C5, as the code has it: `IsValid` rejects every field whose type is the
empty string. Membership of the type in the six declared constants is not
checked. -/
theorem isValid_rejects_empty_type (isValidId : String → Bool) (f : PropertyField A)
    (h : f.Type_ = "") : f.IsValid isValidId ≠ none := by
  intro hv
  exact ((isValid_eq_none_iff_checks isValidId f).1 hv).2.2.2.1 h

/-- Witness of C5 (amended): the field with only a name has an empty type. -/
theorem isValid_rejects_empty_type_witness :
    nameOnlyField.Type_ = "" ∧ nameOnlyField.IsValid IsValidId ≠ none :=
  ⟨by decide, isValid_rejects_empty_type IsValidId nameOnlyField (by decide)⟩

/-- C5 fails as stated: a field whose type `"bogus"` is none of text, select,
multiselect, date, person, multiperson passes `IsValid`. -/
theorem isValid_accepts_unlisted_type :
    unlistedTypeField.Type_ ∉ propertyFieldTypes ∧
    unlistedTypeField.IsValid IsValidId = none := by
  decide

/-- C6, as the code has it: on every field that `IsValid` accepts, `CreateAt`
and `UpdateAt` are both non-zero. The two are not compared with each other. -/
theorem isValid_timestamps_nonzero (isValidId : String → Bool) (f : PropertyField A)
    (h : f.IsValid isValidId = none) : f.CreateAt ≠ 0 ∧ f.UpdateAt ≠ 0 :=
  ((isValid_eq_none_iff_checks isValidId f).1 h).2.2.2.2

/-- Witness of C6 (amended) on the sample field. -/
theorem isValid_timestamps_nonzero_witness :
    sampleField.IsValid IsValidId = none ∧
    sampleField.CreateAt ≠ 0 ∧ sampleField.UpdateAt ≠ 0 :=
  ⟨by decide, isValid_timestamps_nonzero IsValidId sampleField (by decide)⟩

/-- C6 fails as stated: a field with `CreateAt = 2000` and `UpdateAt = 1000`
passes `IsValid` although its update time lies before its creation time. -/
theorem isValid_accepts_update_before_create :
    staleUpdateField.IsValid IsValidId = none ∧
    ¬ (staleUpdateField.UpdateAt ≥ staleUpdateField.CreateAt) := by
  decide

/-! ## Frame properties -/

/-- C11: `PreSave` leaves groupID, name, type, attrs, targetID, targetType and
deleteAt as submitted; only id, createAt and updateAt may differ. -/
theorem preSave_frame (newId : String) (now : Int) (f : PropertyField A) :
    (f.PreSave newId now).GroupID = f.GroupID ∧
    (f.PreSave newId now).Name = f.Name ∧
    (f.PreSave newId now).Type_ = f.Type_ ∧
    (f.PreSave newId now).Attrs = f.Attrs ∧
    (f.PreSave newId now).TargetID = f.TargetID ∧
    (f.PreSave newId now).TargetType = f.TargetType ∧
    (f.PreSave newId now).DeleteAt = f.DeleteAt := by
  by_cases hid : f.ID = "" <;> by_cases hc : f.CreateAt = 0 <;>
    simp [PropertyField.PreSave, hid, hc]

/-- C12: `Patch` leaves id, groupID, createAt, updateAt and deleteAt
unchanged. -/
theorem patch_frame (f : PropertyField A) (p : PropertyFieldPatch A) :
    (f.Patch p).ID = f.ID ∧
    (f.Patch p).GroupID = f.GroupID ∧
    (f.Patch p).CreateAt = f.CreateAt ∧
    (f.Patch p).UpdateAt = f.UpdateAt ∧
    (f.Patch p).DeleteAt = f.DeleteAt := by
  obtain ⟨n, t, a, ti, tt⟩ := p
  cases n <;> cases t <;> cases a <;> cases ti <;> cases tt <;>
    simp [PropertyField.Patch]

/-- C20: applying `Patch` with `p` and then with `q` gives the same field as
applying once the merged patch, whose members are those of `q` where `q`
supplies them and those of `p` otherwise. -/
theorem patch_patch_eq_patch_merge (f : PropertyField A) (p q : PropertyFieldPatch A) :
    (f.Patch p).Patch q = f.Patch (mergePatch p q) := by
  obtain ⟨n, t, a, ti, tt⟩ := p
  obtain ⟨n2, t2, a2, ti2, tt2⟩ := q
  cases n2 <;> cases t2 <;> cases a2 <;> cases ti2 <;> cases tt2 <;>
    cases n <;> cases t <;> cases a <;> cases ti <;> cases tt <;>
    simp [PropertyField.Patch, mergePatch]

/-! ## IsValid, continued -/

/-- C16: `IsValid` returns no error exactly when id and group id are
well-formed, name and type are non-empty and both timestamps are non-zero; its
result is the same whatever attrs, targetID, targetType and deleteAt are. -/
theorem isValid_decides_six_conditions (isValidId : String → Bool) (f : PropertyField A) :
    (f.IsValid isValidId = none ↔
      isValidId f.ID = true ∧ isValidId f.GroupID = true ∧ f.Name ≠ "" ∧ f.Type_ ≠ "" ∧
        f.CreateAt ≠ 0 ∧ f.UpdateAt ≠ 0) ∧
    (∀ (a : A) (targetID targetType : String) (deleteAt : Int),
      PropertyField.IsValid isValidId
        { f with Attrs := a, TargetID := targetID, TargetType := targetType,
                 DeleteAt := deleteAt } = f.IsValid isValidId) :=
  ⟨isValid_eq_none_iff_checks isValidId f, fun _ _ _ _ => rfl⟩

/-- C17: every error that `IsValid` returns carries a non-empty identifying
code, the origin `PropertyField.IsValid` and the status 400. -/
theorem isValid_error_is_bad_request (isValidId : String → Bool) (f : PropertyField A)
    (e : AppError) (h : f.IsValid isValidId = some e) :
    e.Id ≠ "" ∧ e.Where = "PropertyField.IsValid" ∧ e.StatusCode = 400 := by
  unfold PropertyField.IsValid at h
  split_ifs at h <;> simp only [Option.some.injEq, reduceCtorEq] at h <;> subst h <;>
    simp [NewAppError, StatusBadRequest]

/-- Witness of C17 on the field with only a name. -/
theorem isValid_error_is_bad_request_witness :
    nameOnlyField.IsValid IsValidId =
      some (NewAppError "PropertyField.IsValid" "model.property_field.is_valid.id.app_error"
        "" StatusBadRequest) ∧
    (NewAppError "PropertyField.IsValid" "model.property_field.is_valid.id.app_error"
        "" StatusBadRequest).Id ≠ "" ∧
    (NewAppError "PropertyField.IsValid" "model.property_field.is_valid.id.app_error"
        "" StatusBadRequest).Where = "PropertyField.IsValid" ∧
    (NewAppError "PropertyField.IsValid" "model.property_field.is_valid.id.app_error"
        "" StatusBadRequest).StatusCode = 400 :=
  ⟨by decide, isValid_error_is_bad_request IsValidId nameOnlyField _ (by decide)⟩

/-- Without `PreSave` the update_at branch of `IsValid` is reachable: a field
with a zero `UpdateAt` and a non-zero `CreateAt` gets the update_at error. -/
theorem isValid_updateAt_error_reachable :
    (zeroUpdateField.IsValid IsValidId).map AppError.Id =
      some "model.property_field.is_valid.update_at.app_error" := by
  decide

/-- C18: right after `PreSave`, whatever `NewId` and `GetMillis` return,
`IsValid` never returns the update_at error: `UpdateAt` equals `CreateAt`, so a
zero `UpdateAt` is reported as a create_at error or an earlier one. -/
theorem preSave_isValid_never_updateAt_error (isValidId : String → Bool) (newId : String)
    (now : Int) (f : PropertyField A) :
    ((f.PreSave newId now).IsValid isValidId).map AppError.Id ≠
      some "model.property_field.is_valid.update_at.app_error" := by
  have hu : (f.PreSave newId now).UpdateAt = (f.PreSave newId now).CreateAt := by
    simp [PropertyField.PreSave]
  unfold PropertyField.IsValid
  split_ifs with h1 h2 h3 h4 h5 h6
  · simp [NewAppError]
  · simp [NewAppError]
  · simp [NewAppError]
  · simp [NewAppError]
  · simp [NewAppError]
  · exact absurd (hu ▸ h6) h5
  · simp

/-- C19: on a field that `IsValid` accepts, a patch whose name and type are
absent or non-empty gives a field that `IsValid` accepts again; `Patch` does
not validate, so a patch with a present empty name gives a field that
`IsValid` rejects. -/
theorem patch_preserves_validity (isValidId : String → Bool) (f : PropertyField A)
    (p : PropertyFieldPatch A) (hv : f.IsValid isValidId = none) :
    (p.Name ≠ some "" → p.Type_ ≠ some "" → (f.Patch p).IsValid isValidId = none) ∧
    (p.Name = some "" → (f.Patch p).IsValid isValidId ≠ none) := by
  rw [isValid_eq_none_iff_checks] at hv
  obtain ⟨h1, h2, h3, h4, h5, h6⟩ := hv
  obtain ⟨n, t, a, ti, tt⟩ := p
  constructor
  · intro hn ht
    rw [isValid_eq_none_iff_checks]
    cases n <;> cases t <;> cases a <;> cases ti <;> cases tt <;>
      simp_all [PropertyField.Patch]
  · intro hn hvalid
    rw [isValid_eq_none_iff_checks] at hvalid
    simp only [Option.some.injEq] at hn
    subst hn
    cases t <;> cases a <;> cases ti <;> cases tt <;>
      simp_all [PropertyField.Patch]

/-- Witness of C19: the test's patch keeps the sample field valid, the patch
with an empty name makes it invalid. -/
theorem patch_preserves_validity_witness :
    sampleField.IsValid IsValidId = none ∧
    (sampleField.Patch samplePatch).IsValid IsValidId = none ∧
    (sampleField.Patch emptyNamePatch).IsValid IsValidId ≠ none :=
  ⟨by decide,
   (patch_preserves_validity IsValidId sampleField samplePatch (by decide)).1
     (by decide) (by decide),
   (patch_preserves_validity IsValidId sampleField emptyNamePatch (by decide)).2 rfl⟩

/-! ## The property service and the feature adapter -/

/-- A field returned by `GetPropertyField` is stored and has the id asked
for. -/
theorem getPropertyField_ok_mem (id : String) (s : PropertyStore A) (f : PropertyField A)
    (h : GetPropertyField id s = .ok f) : f ∈ s.fields ∧ f.ID = id := by
  unfold GetPropertyField at h
  cases hf : s.fields.find? (fun f => decide (f.ID = id)) with
  | none => simp [hf] at h
  | some g =>
    simp only [hf, Except.ok.injEq] at h
    subst h
    exact ⟨List.mem_of_find?_eq_some hf, by simpa using List.find?_some hf⟩

/-- A soft-deleted field has a non-zero `DeleteAt` when the clock is not at
zero. -/
theorem softDelete_field_deleteAt_ne_zero (now : Int) (hnow : now ≠ 0) (f : PropertyField A) :
    (f.softDelete now).DeleteAt ≠ 0 := by
  unfold PropertyField.softDelete
  split_ifs with h
  · exact hnow
  · exact h

/-- A soft-deleted value has a non-zero `DeleteAt` when the clock is not at
zero. -/
theorem softDelete_value_deleteAt_ne_zero (now : Int) (hnow : now ≠ 0) (v : PropertyValue) :
    (v.softDelete now).DeleteAt ≠ 0 := by
  unfold PropertyValue.softDelete
  split_ifs with h
  · exact hnow
  · exact h

/-- Soft deletion changes no attribute of a value other than `DeleteAt`. -/
theorem softDelete_value_eq (now : Int) (v : PropertyValue) :
    v.softDelete now = { v with DeleteAt := (v.softDelete now).DeleteAt } := by
  unfold PropertyValue.softDelete
  split_ifs <;> rfl

/-- When `DeleteCPAField` succeeds, the field was found in the adapter's group
and the store left behind is the cascade applied to the store. -/
theorem deleteCPAField_store (group : String) (now : Int) (id : String)
    (s s1 : PropertyStore A) (h : DeleteCPAField group now id s = (s1, .ok ())) :
    (∃ f, s.fields.find? (fun f => decide (f.ID = id)) = some f ∧ f.GroupID = group) ∧
    s1 = { fields := s.fields.map (fun f => if f.ID = id then f.softDelete now else f),
           values := s.values.map (fun v => if v.FieldID = id then v.softDelete now else v) } := by
  unfold DeleteCPAField GetCPAField DeletePropertyField GetPropertyField at h
  cases hf : s.fields.find? (fun f => decide (f.ID = id)) with
  | none => simp [hf] at h
  | some f =>
    simp only [hf] at h
    by_cases hg : f.GroupID = group
    · simp [hg] at h
      exact ⟨⟨f, rfl, hg⟩, h.symm⟩
    · simp [hg] at h

/-- `DeleteCPAField` succeeds on every field that `GetPropertyField` finds in
the adapter's group. -/
theorem deleteCPAField_succeeds (group : String) (now : Int) (id : String)
    (s : PropertyStore A) (f : PropertyField A) (hf : GetPropertyField id s = .ok f)
    (hg : f.GroupID = group) : (DeleteCPAField group now id s).2 = .ok () := by
  simp [DeleteCPAField, GetCPAField, DeletePropertyField, hf, hg]

/-- Paging commutes with mapping over the entries. -/
theorem pageOf_map {α β : Type} (g : α → β) (page perPage : Nat) (l : List α) :
    pageOf page perPage (l.map g) = (pageOf page perPage l).map g := by
  simp [pageOf, List.map_take, List.map_drop]

/-- Every entry of a page is an entry of the sequence. -/
theorem mem_of_mem_pageOf {α : Type} (page perPage : Nat) (l : List α) (x : α)
    (h : x ∈ pageOf page perPage l) : x ∈ l :=
  List.mem_of_mem_drop (List.mem_of_mem_take h)

/-- The first page holds the whole sequence when the sequence is no longer
than a page. -/
theorem pageOf_zero_of_length_le {α : Type} (perPage : Nat) (l : List α)
    (h : l.length ≤ perPage) : pageOf 0 perPage l = l := by
  simp [pageOf, List.take_of_length_le h]

/-- A search by a non-empty `FieldID` that includes the deleted values admits
exactly the values of that field. -/
theorem filter_admits_searchByField (id : String) (hid : id ≠ "") (page perPage : Nat)
    (s : PropertyStore A) :
    s.values.filter (searchByField id true page perPage).admits = valuesOfField id s := by
  unfold valuesOfField
  congr 1
  funext v
  by_cases hv : v.FieldID = id <;>
    simp [PropertyValueSearchOpts.admits, searchByField, hid, hv]

/-- C13, with the search paginated: once `DeleteCPAField(id)` has succeeded
(the clock not at zero, the id not empty), the field read back has a non-zero
`DeleteAt`; the search by that `FieldID` finds no value, on any page; the same
search with `IncludeDeleted` finds, page by page, the values it found before
the deletion, each equal to the original in every attribute but `DeleteAt`,
which is non-zero; on the first page it finds all the values of the field when
they are no more than `perPage`. -/
theorem deleteCPAField_cascade (group : String) (now : Int) (id : String)
    (s s1 : PropertyStore A) (hnow : now ≠ 0) (hid : id ≠ "")
    (h : DeleteCPAField group now id s = (s1, .ok ())) (page perPage : Nat) :
    (∃ f, GetPropertyField id s1 = .ok f ∧ f.DeleteAt ≠ 0) ∧
    SearchPropertyValues (searchByField id false page perPage) s1 = [] ∧
    List.Forall₂ (fun v w => w = { v with DeleteAt := w.DeleteAt } ∧ w.DeleteAt ≠ 0)
      (SearchPropertyValues (searchByField id true page perPage) s)
      (SearchPropertyValues (searchByField id true page perPage) s1) ∧
    ((valuesOfField id s).length ≤ perPage →
      List.Forall₂ (fun v w => w = { v with DeleteAt := w.DeleteAt } ∧ w.DeleteAt ≠ 0)
        (valuesOfField id s)
        (SearchPropertyValues (searchByField id true 0 perPage) s1)) := by
  obtain ⟨⟨f, hf, -⟩, rfl⟩ := deleteCPAField_store group now id s s1 h
  have hfid : f.ID = id := by simpa using List.find?_some hf
  have hcomp : ∀ pg : Nat, (PropertyValueSearchOpts.admits (searchByField id true pg perPage) ∘
      fun v : PropertyValue => if v.FieldID = id then v.softDelete now else v) =
      PropertyValueSearchOpts.admits (searchByField id true pg perPage) := by
    intro pg
    funext v
    by_cases hv : v.FieldID = id
    · simp [hv, PropertyValueSearchOpts.admits, searchByField, PropertyValue.softDelete]
      split_ifs <;> simp [hv]
    · simp [hv]
  have hafter : ∀ pg : Nat,
      SearchPropertyValues (searchByField id true pg perPage)
        ({ fields := s.fields.map (fun f => if f.ID = id then f.softDelete now else f),
           values := s.values.map (fun v => if v.FieldID = id then v.softDelete now else v) } :
          PropertyStore A) =
      (pageOf pg perPage (valuesOfField id s)).map
        (fun v => if v.FieldID = id then v.softDelete now else v) := by
    intro pg
    simp only [SearchPropertyValues, List.filter_map]
    rw [hcomp pg, filter_admits_searchByField id hid pg perPage s, pageOf_map]
    rfl
  have hrel : ∀ l : List PropertyValue, (∀ v ∈ l, v.FieldID = id) →
      List.Forall₂ (fun v w => w = { v with DeleteAt := w.DeleteAt } ∧ w.DeleteAt ≠ 0) l
        (l.map (fun v => if v.FieldID = id then v.softDelete now else v)) := by
    intro l hl
    rw [List.forall₂_map_right_iff, List.forall₂_same]
    intro v hv
    rw [if_pos (hl v hv)]
    exact ⟨softDelete_value_eq now v, softDelete_value_deleteAt_ne_zero now hnow v⟩
  have hfield : ∀ v ∈ valuesOfField id s, v.FieldID = id := by
    intro v hv
    simpa [valuesOfField] using (List.mem_filter.1 hv).2
  refine ⟨⟨f.softDelete now, ?_, softDelete_field_deleteAt_ne_zero now hnow f⟩, ?_, ?_, ?_⟩
  · have hc : ((fun g : PropertyField A => decide (g.ID = id)) ∘
        fun g : PropertyField A => if g.ID = id then g.softDelete now else g) =
        fun g : PropertyField A => decide (g.ID = id) := by
      funext g
      by_cases hg : g.ID = id
      · simp [hg, PropertyField.softDelete]
        split_ifs <;> simp [hg]
      · simp [hg]
    simp only [GetPropertyField, List.find?_map, hc, hf, Option.map_some', hfid, if_true]
  · have hnone : (List.map (fun v => if v.FieldID = id then v.softDelete now else v)
        s.values).filter (searchByField id false page perPage).admits = [] := by
      simp only [List.filter_eq_nil_iff, List.mem_map]
      rintro w ⟨v, -, rfl⟩
      by_cases hv : v.FieldID = id
      · have := softDelete_value_deleteAt_ne_zero now hnow v
        simp [hv, PropertyValueSearchOpts.admits, searchByField, this]
      · have hne : id ≠ v.FieldID := fun e => hv e.symm
        simp [hv, PropertyValueSearchOpts.admits, searchByField, hid, hne]
    simp only [SearchPropertyValues, hnone]
    simp [pageOf, searchByField]
  · rw [hafter page]
    have hbefore : SearchPropertyValues (searchByField id true page perPage) s =
        pageOf page perPage (valuesOfField id s) := by
      simp only [SearchPropertyValues]
      rw [filter_admits_searchByField id hid page perPage s]
      rfl
    rw [hbefore]
    exact hrel _ (fun v hv => hfield v (mem_of_mem_pageOf page perPage _ v hv))
  · intro hle
    rw [hafter 0, pageOf_zero_of_length_le perPage _ hle]
    exact hrel _ hfield

/-- Witness of C13 (amended): deleting the sample field of the sample store at
time 5000 succeeds; with the test's page of ten, the search by its id finds the
three values before, none afterwards, and with `IncludeDeleted` all three
again, soft-deleted. -/
theorem deleteCPAField_cascade_witness :
    (DeleteCPAField sampleGroupId 5000 sampleId sampleStore).2 = .ok () ∧
    (SearchPropertyValues (searchByField sampleId false 0 10) sampleStore).length = 3 ∧
    (valuesOfField sampleId sampleStore).length = 3 ∧
    (∃ f, GetPropertyField sampleId
        (DeleteCPAField sampleGroupId 5000 sampleId sampleStore).1 = .ok f ∧ f.DeleteAt ≠ 0) ∧
    SearchPropertyValues (searchByField sampleId false 0 10)
        (DeleteCPAField sampleGroupId 5000 sampleId sampleStore).1 = [] ∧
    List.Forall₂ (fun v w => w = { v with DeleteAt := w.DeleteAt } ∧ w.DeleteAt ≠ 0)
        (valuesOfField sampleId sampleStore)
        (SearchPropertyValues (searchByField sampleId true 0 10)
          (DeleteCPAField sampleGroupId 5000 sampleId sampleStore).1) :=
  ⟨rfl, by decide, by decide,
   (deleteCPAField_cascade sampleGroupId 5000 sampleId sampleStore _ (by decide) (by decide)
     rfl 0 10).1,
   (deleteCPAField_cascade sampleGroupId 5000 sampleId sampleStore _ (by decide) (by decide)
     rfl 0 10).2.1,
   (deleteCPAField_cascade sampleGroupId 5000 sampleId sampleStore _ (by decide) (by decide)
     rfl 0 10).2.2.2 (by decide)⟩

/-- C13 fails as stated: the search is paginated. With eleven values of the
field, `DeleteCPAField` succeeds, and the test's search (`PerPage: 10`, first
page) with `IncludeDeleted` then returns ten values, not all eleven. -/
theorem search_after_delete_returns_one_page :
    (DeleteCPAField sampleGroupId 5000 sampleId elevenValuesStore).2 = .ok () ∧
    (valuesOfField sampleId elevenValuesStore).length = 11 ∧
    (SearchPropertyValues (searchByField sampleId true 0 10)
      (DeleteCPAField sampleGroupId 5000 sampleId elevenValuesStore).1).length = 10 ∧
    ¬ List.Forall₂ (fun v w => w = { v with DeleteAt := w.DeleteAt } ∧ w.DeleteAt ≠ 0)
        (valuesOfField sampleId elevenValuesStore)
        (SearchPropertyValues (searchByField sampleId true 0 10)
          (DeleteCPAField sampleGroupId 5000 sampleId elevenValuesStore).1) := by
  refine ⟨rfl, by decide, by decide, fun hall => ?_⟩
  have hlen := hall.length_eq
  revert hlen
  decide

/-- C14, as the tests have it: a stored field of another group than the
adapter's makes `GetCPAField` fail with the field-not-found error
(`property_field_not_found`) and return no field; a field of the adapter's
group is returned; an id under which nothing is stored fails with another
error (`get_property_field`). -/
theorem getCPAField_group_isolation (group id : String) (s : PropertyStore A) :
    (∀ f, GetPropertyField id s = .ok f → f.GroupID ≠ group →
      GetCPAField group id s = .error .propertyFieldNotFound) ∧
    (∀ f, GetPropertyField id s = .ok f → f.GroupID = group →
      GetCPAField group id s = .ok f) ∧
    (GetPropertyField id s = .error .notFound →
      GetCPAField group id s = .error .getPropertyField) ∧
    CPAError.propertyFieldNotFound.Id =
      some "app.custom_profile_attributes.property_field_not_found.app_error" ∧
    CPAError.getPropertyField.Id =
      some "app.custom_profile_attributes.get_property_field.app_error" := by
  refine ⟨fun f hf hg => ?_, fun f hf hg => ?_, fun h => ?_, rfl, rfl⟩
  · simp [GetCPAField, hf, hg]
  · simp [GetCPAField, hf, hg]
  · simp [GetCPAField, h]

/-- Witness of C14 (amended) on the sample store, whose adapter group is
`sampleGroupId`. -/
theorem getCPAField_group_isolation_witness :
    GetPropertyField foreignField.ID sampleStore = .ok foreignField ∧
    foreignField.GroupID ≠ sampleGroupId ∧
    GetCPAField sampleGroupId foreignField.ID sampleStore = .error .propertyFieldNotFound ∧
    GetCPAField sampleGroupId sampleId sampleStore = .ok sampleField ∧
    GetCPAField sampleGroupId absentId sampleStore = .error .getPropertyField :=
  ⟨rfl, by decide,
   (getCPAField_group_isolation sampleGroupId foreignField.ID sampleStore).1 foreignField
     rfl (by decide),
   (getCPAField_group_isolation sampleGroupId sampleId sampleStore).2.1 sampleField
     rfl (by decide),
   (getCPAField_group_isolation sampleGroupId absentId sampleStore).2.2.1 rfl⟩

/-- C14 fails as stated: through the adapter a field of another group is not
indistinguishable from an absent one. The stored foreign field fails with
`property_field_not_found`, the absent id with `get_property_field`, and the
two identifiers differ. -/
theorem getCPAField_foreign_differs_from_absent :
    GetPropertyField foreignField.ID sampleStore = .ok foreignField ∧
    GetPropertyField absentId sampleStore = .error .notFound ∧
    GetCPAField sampleGroupId foreignField.ID sampleStore = .error .propertyFieldNotFound ∧
    GetCPAField sampleGroupId absentId sampleStore = .error .getPropertyField ∧
    CPAError.propertyFieldNotFound.Id ≠ CPAError.getPropertyField.Id :=
  ⟨rfl, rfl, rfl, rfl, by decide⟩

/-! ## The field-count quota -/

/-- `PreSave` keeps the group and the deletion time of the field. -/
theorem preSave_groupID_deleteAt (newId : String) (now : Int) (f : PropertyField A) :
    (f.PreSave newId now).GroupID = f.GroupID ∧ (f.PreSave newId now).DeleteAt = f.DeleteAt := by
  by_cases hid : f.ID = "" <;> by_cases hc : f.CreateAt = 0 <;>
    simp [PropertyField.PreSave, hid, hc]

/-- With the active count at the limit or above, `CreateCPAField` fails with the
quota error and leaves the store as it was. -/
theorem createCPAField_at_limit (group : String) (limit : Nat) (isValidId : String → Bool)
    (newId : String) (now : Int) (field : PropertyField A) (s : PropertyStore A)
    (h : limit ≤ activeFieldCount group s) :
    CreateCPAField group limit isValidId newId now field s = (s, .error .limitReached) := by
  simp [CreateCPAField, h]

/-- With the active count below the limit, a valid create succeeds: the stored
field is appended to the store and returned. -/
theorem createCPAField_below_limit (group : String) (limit : Nat) (isValidId : String → Bool)
    (newId : String) (now : Int) (field : PropertyField A) (s : PropertyStore A)
    (h : activeFieldCount group s < limit)
    (hv : validCreate group isValidId (field, newId, now)) :
    CreateCPAField group limit isValidId newId now field s =
      ({ s with fields := s.fields ++ [storedByCreate group (field, newId, now)] },
       .ok (storedByCreate group (field, newId, now))) := by
  have hov : (if field.GroupID = "" ∨ field.GroupID ≠ group then
      { field with GroupID := group } else field) = { field with GroupID := group } := by
    split_ifs with hc
    · rfl
    · have : field.GroupID = group := by
        by_contra hne
        exact hc (Or.inr hne)
      cases field
      simp_all
  have hlt : ¬ limit ≤ activeFieldCount group s := Nat.not_le.2 h
  have hvalid := hv.1
  simp only [storedByCreate] at hvalid ⊢
  simp only [CreateCPAField, hov, hlt, if_false, CreatePropertyField, hvalid]

/-- Persisting the field of a create that submits an active field raises the
active count of the adapter's group by one. -/
theorem activeFieldCount_append_stored (group : String) (c : PropertyField A × String × Int)
    (s : PropertyStore A) (hd : c.1.DeleteAt = 0) :
    activeFieldCount group { s with fields := s.fields ++ [storedByCreate group c] } =
      activeFieldCount group s + 1 := by
  have h1 : (storedByCreate group c).GroupID = group :=
    (preSave_groupID_deleteAt c.2.1 c.2.2 { c.1 with GroupID := group }).1
  have h2 : (storedByCreate group c).DeleteAt = 0 :=
    ((preSave_groupID_deleteAt c.2.1 c.2.2 { c.1 with GroupID := group }).2).trans hd
  simp [activeFieldCount, List.filter_append, h1, h2]

/-- A sequence of valid creates that fits under the limit succeeds as a whole:
every stored field is appended and returned, and the active count grows by the
length of the sequence. -/
theorem createCPAFields_within_limit (group : String) (limit : Nat)
    (isValidId : String → Bool) (cs : List (PropertyField A × String × Int)) :
    ∀ s : PropertyStore A, activeFieldCount group s + cs.length ≤ limit →
      (∀ c ∈ cs, validCreate group isValidId c) →
      CreateCPAFields group limit isValidId cs s =
        ({ s with fields := s.fields ++ cs.map (storedByCreate group) },
         cs.map (fun c => .ok (storedByCreate group c))) ∧
      activeFieldCount group (CreateCPAFields group limit isValidId cs s).1 =
        activeFieldCount group s + cs.length := by
  induction cs with
  | nil => intro s _ _; simp [CreateCPAFields]
  | cons c rest ih =>
    intro s hle hv
    obtain ⟨field, newId, now⟩ := c
    have hc : validCreate group isValidId (field, newId, now) := hv _ (List.mem_cons_self _ _)
    have hlt : activeFieldCount group s < limit := by
      simp only [List.length_cons] at hle
      omega
    have hstep := createCPAField_below_limit group limit isValidId newId now field s hlt hc
    have hcount := activeFieldCount_append_stored group (field, newId, now) s hc.2
    have hrest := ih { s with fields := s.fields ++ [storedByCreate group (field, newId, now)] }
      (by simp only [List.length_cons] at hle; omega)
      (fun c hcm => hv c (List.mem_cons_of_mem _ hcm))
    simp only [CreateCPAFields, hstep]
    refine ⟨?_, ?_⟩
    · rw [hrest.1]
      simp
    · rw [hrest.2, hcount]
      simp only [List.length_cons]
      omega

/-- C15: starting from a group without active fields, a sequence of as many
valid creates as the limit allows succeeds create by create, each stored field
being persisted and returned, and brings the active count to the limit; any
create after it fails with the quota error, whose status is 422, returns no
field and leaves the store as it was. -/
theorem createCPAField_quota (group : String) (limit : Nat) (isValidId : String → Bool)
    (cs : List (PropertyField A × String × Int)) (s : PropertyStore A)
    (hempty : activeFieldCount group s = 0) (hlen : cs.length = limit)
    (hvalid : ∀ c ∈ cs, validCreate group isValidId c) :
    (CreateCPAFields group limit isValidId cs s).2 =
      cs.map (fun c => .ok (storedByCreate group c)) ∧
    (CreateCPAFields group limit isValidId cs s).1.fields =
      s.fields ++ cs.map (storedByCreate group) ∧
    activeFieldCount group (CreateCPAFields group limit isValidId cs s).1 = limit ∧
    (∀ (field : PropertyField A) (newId : String) (now : Int),
      CreateCPAField group limit isValidId newId now field
          (CreateCPAFields group limit isValidId cs s).1 =
        ((CreateCPAFields group limit isValidId cs s).1, .error .limitReached)) ∧
    CPAError.limitReached.StatusCode = some 422 := by
  obtain ⟨hrun, hcount⟩ :=
    createCPAFields_within_limit group limit isValidId cs s (by omega) hvalid
  have hfull : activeFieldCount group (CreateCPAFields group limit isValidId cs s).1 = limit := by
    rw [hcount, hempty, hlen, Nat.zero_add]
  refine ⟨by rw [hrun], by rw [hrun], hfull, fun field newId now => ?_, rfl⟩
  exact createCPAField_at_limit group limit isValidId newId now field _ (Nat.le_of_eq hfull.symm)

/-- The two sample creates are valid creates for the adapter's group. -/
theorem twoCreates_valid : ∀ c ∈ twoCreates, validCreate sampleGroupId IsValidId c := by
  intro c hc
  simp only [twoCreates, List.mem_cons, List.mem_singleton, List.not_mem_nil, or_false] at hc
  rcases hc with rfl | rfl <;> exact ⟨by decide, by decide⟩

/-- Witness of C15 with a limit of two: both sample creates succeed from the
empty store and a third create fails with the quota error, the store keeping
its two fields. -/
theorem createCPAField_quota_witness :
    activeFieldCount sampleGroupId emptyStore = 0 ∧
    (CreateCPAFields sampleGroupId 2 IsValidId twoCreates emptyStore).2 =
      twoCreates.map (fun c => .ok (storedByCreate sampleGroupId c)) ∧
    (CreateCPAFields sampleGroupId 2 IsValidId twoCreates emptyStore).1.fields.length = 2 ∧
    CreateCPAField sampleGroupId 2 IsValidId otherGroupId 1002 newField
        (CreateCPAFields sampleGroupId 2 IsValidId twoCreates emptyStore).1 =
      ((CreateCPAFields sampleGroupId 2 IsValidId twoCreates emptyStore).1,
       .error .limitReached) :=
  ⟨by decide,
   (createCPAField_quota sampleGroupId 2 IsValidId twoCreates emptyStore (by decide) rfl
     twoCreates_valid).1,
   by decide,
   (createCPAField_quota sampleGroupId 2 IsValidId twoCreates emptyStore (by decide) rfl
     twoCreates_valid).2.2.2.1 newField otherGroupId 1002⟩

/-! ## The audit record -/

/-- C21: `Auditable` returns a map whose keys are pairwise distinct and are
exactly id, group_id, name, attrs, type, target_id, target_type, create_at,
update_at, delete_at, the JSON tags of the struct; each key is mapped to the
attribute of that name, any other key to nothing; the field is left as it
was. -/
theorem auditable_mirrors_field (f : PropertyField A) :
    (f.Auditable.2.map Prod.fst).Nodup ∧
    (∀ k, k ∈ f.Auditable.2.map Prod.fst ↔
      k ∈ ["id", "group_id", "name", "attrs", "type", "target_id", "target_type",
           "create_at", "update_at", "delete_at"]) ∧
    (f.Auditable.2.map Prod.fst).Perm propertyFieldJSONTags ∧
    (f.Auditable.2.lookup "id" = some (.string f.ID) ∧
     f.Auditable.2.lookup "group_id" = some (.string f.GroupID) ∧
     f.Auditable.2.lookup "name" = some (.string f.Name) ∧
     f.Auditable.2.lookup "attrs" = some (.attrs f.Attrs) ∧
     f.Auditable.2.lookup "type" = some (.fieldType f.Type_) ∧
     f.Auditable.2.lookup "target_id" = some (.string f.TargetID) ∧
     f.Auditable.2.lookup "target_type" = some (.string f.TargetType) ∧
     f.Auditable.2.lookup "create_at" = some (.int64 f.CreateAt) ∧
     f.Auditable.2.lookup "update_at" = some (.int64 f.UpdateAt) ∧
     f.Auditable.2.lookup "delete_at" = some (.int64 f.DeleteAt)) ∧
    (∀ k, k ∉ propertyFieldJSONTags → f.Auditable.2.lookup k = none) ∧
    f.Auditable.1 = f := by
  have hkeys : f.Auditable.2.map Prod.fst =
      ["id", "group_id", "name", "attrs", "type", "target_id", "target_type",
       "create_at", "update_at", "delete_at"] := rfl
  refine ⟨?_, ?_, ?_, ?_, ?_, rfl⟩
  · rw [hkeys]
    decide
  · intro k
    rw [hkeys]
  · rw [hkeys]
    decide
  · refine ⟨rfl, rfl, rfl, rfl, rfl, rfl, rfl, rfl, rfl, rfl⟩
  · intro k hk
    rw [List.lookup_eq_none_iff]
    intro p hp
    rw [bne_iff_ne]
    intro hkp
    apply hk
    have hmem : p.1 ∈ f.Auditable.2.map Prod.fst := List.mem_map_of_mem Prod.fst hp
    rw [hkeys] at hmem
    rw [hkp]
    revert hmem
    generalize p.1 = q
    simp only [propertyFieldJSONTags, List.mem_cons, List.mem_singleton, List.not_mem_nil,
      or_false]
    tauto

end Model
